import Mathlib

/-!
Verification of the smartcharge_helper_pvpc charging advisor
(src/smartcharge_helper_pvpc/server.py) against its design specification.

The Python code is shallowly embedded: prices are modelled as exact
rationals (the source uses IEEE floats; every claim settled here is about
order, selection, counting or error structure, none of which depends on
rounding of binary floating point), hours as naturals, fallible operations
as `Except String` carrying the literal error message of the source, and
the external HTTP fetch as an `Except String REEResponse` argument.
-/

/-- Truncation toward zero, the semantics of Python's `int()` applied to a
float/rational value. -/
def pyInt (q : ℚ) : ℤ := if 0 ≤ q then ⌊q⌋ else ⌈q⌉

/-- Embeds server.py lines 185-186:
`hours_needed = max(1, int((kwh / charger_power_kw) + 0.5))` with
`charger_power_kw = 7.4`. -/
def hours_needed (kwh : ℚ) : ℕ := (max 1 (pyInt (kwh / (7.4 : ℚ) + 0.5))).toNat

/-- Embeds `ChargingServer.generate_hour_range` (server.py lines 145-161).
Python's `list(range(a, b))` is `List.range' a (b - a)` (empty when `b ≤ a`,
which cannot occur for the branches below). -/
def generate_hour_range (start e : ℕ) : List ℕ :=
  if start ≤ e then
    List.range' start (e + 1 - start)
  else
    List.range' start (24 - start) ++ List.range' 0 (e + 1)

/-- Embeds server.py line 177: the day's prices restricted to the allowed
hour range, `[(h, p) for h, p in prices if h in hour_range]`. -/
def filtered_prices (prices : List (ℕ × ℚ)) (hour_range : List ℕ) : List (ℕ × ℚ) :=
  prices.filter (fun hp => hour_range.contains hp.1)

/-- Python slice `l[i : i + hn]` of the filtered list (server.py line 197). -/
def window (l : List (ℕ × ℚ)) (hn i : ℕ) : List (ℕ × ℚ) := (l.drop i).take hn

/-- Embeds server.py line 198:
`avg_price = sum(price for _, price in window) / len(window)`. -/
def windowMean (w : List (ℕ × ℚ)) : ℚ := (w.map Prod.snd).sum / w.length

/-- Embeds one iteration of the search loop (server.py lines 196-202).  The
accumulator is `(best_avg_price, best_hours)`; `none` in the first component
models the initial `float('inf')`, which every finite mean beats. -/
def bestStep (fp : List (ℕ × ℚ)) (hn : ℕ) (acc : Option ℚ × List ℕ) (i : ℕ) :
    Option ℚ × List ℕ :=
  let w := window fp hn i
  let avg := windowMean w
  match acc.1 with
  | none => (some avg, w.map Prod.fst)
  | some b => if avg < b then (some avg, w.map Prod.fst) else acc

/-- Embeds server.py lines 185-190: the required hour count after clamping
to the filtered sequence's length
(`if hours_needed > len(filtered_prices): hours_needed = len(filtered_prices)`). -/
def clamped_hours (prices : List (ℕ × ℚ)) (hour_range : List ℕ) (kwh : ℚ) : ℕ :=
  let len := (filtered_prices prices hour_range).length
  if hours_needed kwh > len then len else hours_needed kwh

/-- Embeds `ChargingServer.find_best_consecutive_hours` (server.py lines
163-204).  Returns the winning `(best_hours, best_avg_price)`; the second
component is `none` exactly when the loop never ran (modelling the initial
`float('inf')`, shown unreachable in `find_best_spec`). -/
def find_best_consecutive_hours (prices : List (ℕ × ℚ)) (hour_range : List ℕ)
    (kwh : ℚ) : Except String (List ℕ × Option ℚ) :=
  let fp := filtered_prices prices hour_range
  if fp.isEmpty then
    Except.error "No prices available in specified hour range"
  else
    let hn := clamped_hours prices hour_range kwh
    let r := (List.range (fp.length - hn + 1)).foldl (bestStep fp hn) (none, [])
    Except.ok (r.2, r.1)

/-- One time-stamped reading of the upstream payload.  The source extracts
`datetime.fromisoformat(value["datetime"]).hour` from an ISO-8601 string and
reads the numeric `value["value"]` (EUR/MWh); the embedding records the
already-extracted hour-of-day next to that raw value, since no claim is
about the timestamp-string parsing itself. -/
structure PriceReading where
  hour : ℕ
  value : ℚ
deriving DecidableEq

/-- One entry of the payload's `included` collection: its `type` field, its
`id` field, and the readings at `attributes.values`. -/
structure PVPCItem where
  type : String
  id : String
  values : List PriceReading
deriving DecidableEq

/-- The decoded upstream payload: the `included` collection of named series. -/
structure REEResponse where
  included : List PVPCItem
deriving DecidableEq

/-- Character-list version of `List.isPrefixOf` over `==`, used to state
Python's substring test. -/
def charsStart : List Char → List Char → Bool
  | [], _ => true
  | _ :: _, [] => false
  | a :: as, b :: bs => a == b && charsStart as bs

/-- Contiguous-substring test on character lists. -/
def charsHaveSub (sub : List Char) : List Char → Bool
  | [] => charsStart sub []
  | c :: t => charsStart sub (c :: t) || charsHaveSub sub t

/-- Python's `sub in s` on strings: `sub` occurs contiguously in `s`. -/
def strHasSub (sub s : String) : Bool := charsHaveSub sub.data s.data

/-- Embeds the selection test of server.py line 100:
`item.get("type") == "PVPC" or "PVPC" in item.get("id", "")`.  Note the
first disjunct is string EQUALITY on the type field; only the id field is
tested by substring containment. -/
def isPVPCEntry (item : PVPCItem) : Bool :=
  item.type == "PVPC" || strHasSub "PVPC" item.id

/-- Selection rule as worded by the spec (written from the spec, not the
source, for comparison): an entry is the PVPC series if its declared type
OR identifier field CONTAINS the literal marker "PVPC". -/
def specPVPCEntry (item : PVPCItem) : Bool :=
  strHasSub "PVPC" item.type || strHasSub "PVPC" item.id

/-- Embeds the payload-handling part of `ChargingServer.get_pvpc_prices`
(server.py lines 94-107), i.e. everything after the HTTP response has been
decoded: reject an empty `included` collection, locate the first entry
passing `isPVPCEntry` (the `for`/`break` loop is `List.find?`), and reject
a missing match or a match with no `attributes.values`. -/
def get_pvpc_prices (date : String) (data : REEResponse) : Except String PVPCItem :=
  if data.included.isEmpty then
    Except.error ("No price data available for date " ++ date)
  else
    match data.included.find? (fun item => isPVPCEntry item) with
    | none => Except.error ("No PVPC data available for date " ++ date)
    | some item =>
      if item.values.isEmpty then
        Except.error ("No PVPC data available for date " ++ date)
      else
        Except.ok item

/-- Embeds `ChargingServer.parse_hourly_prices` (server.py lines 114-143):
each reading becomes `(hour, value / 1000)` (EUR/MWh to EUR/kWh), then the
list is sorted ascending by hour (`prices.sort(key=lambda x: x[0])`). -/
def parse_hourly_prices (data : PVPCItem) : List (ℕ × ℚ) :=
  let prices := data.values.map (fun v => (v.hour, v.value / 1000))
  prices.mergeSort (fun a b => decide (a.1 ≤ b.1))

/-- Python's `round(q, k)` followed by the implicit re-scaling: the value
rounded to `k` decimal places.  Python rounds floats half-to-even, but an
exact tie `q * 10^k + 1/2 ∈ ℤ` requires a denominator divisible by 5, which
no binary floating-point value has, so the tie rule is never exercised by
the source and any round-to-nearest models it; we use Mathlib's `round`. -/
def roundTo (k : ℕ) (q : ℚ) : ℚ := (round (q * 10 ^ k) : ℤ) / 10 ^ k

/-- Python's `f"{hour:02d}:00"` (server.py line 234): two-digit zero-padded
hour followed by ":00". -/
def formatHour (h : ℕ) : String :=
  (if h < 10 then "0" ++ toString h else toString h) ++ ":00"

/-- Zero-pads a digit string on the left to width `k`. -/
def padZeros (k : ℕ) (s : String) : String :=
  if s.length < k then String.mk (List.replicate (k - s.length) '0') ++ s else s

/-- Python's fixed-point float formatting `f"{q:.kf}"`. -/
def fmtFixed (k : ℕ) (q : ℚ) : String :=
  let scaled : ℤ := round (q * 10 ^ k)
  let sign := if scaled < 0 then "-" else ""
  let a := scaled.natAbs
  sign ++ toString (a / 10 ^ k) ++ "." ++ padZeros k (toString (a % 10 ^ k))

/-- Python's `f"{kwh}"` uses `repr` of the float; that rendering is
presentation-only (no claim concerns it), so the embedding renders the
rational canonically. -/
def numRepr (q : ℚ) : String := toString q

/-- Python's `min(l)` on a non-empty list; the `[]` case is junk (Python
raises there), reached by no caller because `get_pvpc_prices` rejects a
selected entry with zero readings. -/
def listMin : List ℚ → ℚ
  | [] => 0
  | x :: xs => xs.foldl min x

/-- Python's `max(l)` on a non-empty list; `[]` is junk as in `listMin`. -/
def listMax : List ℚ → ℚ
  | [] => 0
  | x :: xs => xs.foldl max x

/-- Numeric value of a decimal digit character. -/
def digitVal (c : Char) : ℕ := c.toNat - 48

/-- CPython `_strptime` directive `%Y`: exactly four decimal digits. -/
def parseYear4 : List Char → Option (ℕ × List Char)
  | a :: b :: c :: d :: rest =>
    if a.isDigit && b.isDigit && c.isDigit && d.isDigit then
      some (1000 * digitVal a + 100 * digitVal b + 10 * digitVal c + digitVal d, rest)
    else
      none
  | _ => none

/-- CPython `_strptime` directive `%m`, the regex `1[0-2]|0[1-9]|[1-9]`
with its left-to-right alternative order. -/
def parseMonth : List Char → Option (ℕ × List Char)
  | '1' :: c :: rest =>
    if c == '0' || c == '1' || c == '2' then some (10 + digitVal c, rest)
    else some (1, c :: rest)
  | '0' :: c :: rest =>
    if '1' ≤ c && c ≤ '9' then some (digitVal c, rest) else none
  | c :: c2 :: rest =>
    if '1' ≤ c && c ≤ '9' then some (digitVal c, c2 :: rest) else none
  | [c] => if '1' ≤ c && c ≤ '9' then some (digitVal c, []) else none
  | [] => none

/-- CPython `_strptime` directive `%d`, the regex
`3[01]|[12]\d|0[1-9]|[1-9]` with its left-to-right alternative order. -/
def parseDay : List Char → Option (ℕ × List Char)
  | '3' :: c :: rest =>
    if c == '0' || c == '1' then some (30 + digitVal c, rest) else some (3, c :: rest)
  | '0' :: c :: rest =>
    if '1' ≤ c && c ≤ '9' then some (digitVal c, rest) else none
  | c :: c2 :: rest =>
    if (c == '1' || c == '2') && c2.isDigit then
      some (10 * digitVal c + digitVal c2, rest)
    else if '1' ≤ c && c ≤ '9' then some (digitVal c, c2 :: rest)
    else none
  | [c] => if '1' ≤ c && c ≤ '9' then some (digitVal c, []) else none
  | [] => none

/-- Number of days in a month with the Gregorian leap rule, as validated by
`datetime.datetime`. -/
def daysInMonth (y m : ℕ) : ℕ :=
  if m = 2 then
    if y % 4 = 0 && (y % 100 ≠ 0 || y % 400 = 0) then 29 else 28
  else if m = 4 || m = 6 || m = 9 || m = 11 then 30
  else 31

/-- Embeds `datetime.strptime(date, "%Y-%m-%d")` succeeding (server.py
lines 216-219 and 271-274): CPython compiles the format to the regexes
above, requires the match to consume the whole string, and then
`datetime.datetime` checks `1 ≤ year` and that the day exists in the
month. -/
def strptimeYmdOk (s : String) : Bool :=
  match parseYear4 s.data with
  | none => false
  | some (y, r1) =>
    match r1 with
    | '-' :: r2 =>
      match parseMonth r2 with
      | none => false
      | some (m, r3) =>
        match r3 with
        | '-' :: r4 =>
          match parseDay r4 with
          | none => false
          | some (d, r5) =>
            r5.isEmpty && decide (1 ≤ y) && decide (d ≤ daysInMonth y m)
        | _ => false
    | _ => false

/-- Format test as worded by the spec (written from the spec, not the
source, for comparison): the string matches `YYYY-MM-DD`, i.e. the regex
`^\d\x7b4\x7d-\d\x7b2\x7d-\d\x7b2\x7d$` of the tool schema. -/
def matchesYYYYMMDD (s : String) : Bool :=
  match s.data with
  | [y1, y2, y3, y4, s1, m1, m2, s2, d1, d2] =>
    y1.isDigit && y2.isDigit && y3.isDigit && y4.isDigit && s1 == '-' &&
      m1.isDigit && m2.isDigit && s2 == '-' && d1.isDigit && d2.isDigit
  | _ => false

/-- Result record of `get_best_charging_hours` (the `ChargingRecommendation`
pydantic model, server.py lines 20-25). -/
structure ChargingRecommendationM where
  recommended_hours : List String
  average_price_eur_kwh : ℚ
  total_cost_eur : ℚ
  explanation : String
  query_date : String
deriving DecidableEq

/-- Result record of `get_current_pvpc_prices` (the `PVPCData` pydantic
model, server.py lines 33-38); an hourly price is its `"HH:00"` label and
its price rounded to 4 decimals. -/
structure PVPCDataM where
  date : String
  hourly_prices : List (String × ℚ)
  min_price : ℚ
  max_price : ℚ
  average_price : ℚ
deriving DecidableEq

/-- Embeds the explanation construction of server.py lines 240-253.  The
three string arguments stand for the rendered `kwh`, `total_cost` and
`avg_price` of the f-strings.  Python indexes `formatted_hours[0]` and
`best_hours[-1]` on a list that is never empty there; `headD`/`getLastD`
give the same values on non-empty lists. -/
def explanationText (best_hours : List ℕ) (kwhStr costStr priceStr : String) : String :=
  let formatted_hours := best_hours.map formatHour
  if best_hours.length == 1 then
    "Recommended charging time: " ++ formatted_hours.headD "" ++ ". With " ++
      kwhStr ++ " kWh consumption, cost will be " ++ costStr ++
      "€ (price: " ++ priceStr ++ "€/kWh)."
  else
    let start_time := formatted_hours.headD ""
    let end_time := formatHour (best_hours.getLastD 0 + 1)
    "Recommended charging period: " ++ start_time ++ " to " ++ end_time ++
      ". With " ++ kwhStr ++ " kWh consumption, cost will be " ++ costStr ++
      "€ (average price: " ++ priceStr ++ "€/kWh)."

/-- Embeds `ChargingServer.get_best_charging_hours` (server.py lines
206-261).  `today` is `datetime.now().strftime("%Y-%m-%d")`, used when no
date is given; `fetch` is the outcome of the HTTP call of
`get_pvpc_prices`, whose payload handling is `get_pvpc_prices` above.
`avg` is `none` only if the search loop never ran, which cannot happen
(`find_best_spec`); `getD 0` supplies the junk value for that dead branch. -/
def get_best_charging_hours (today : String) (fetch : Except String REEResponse)
    (date : Option String) (start_hour end_hour : ℕ) (kwh : ℚ) :
    Except String ChargingRecommendationM :=
  let d := date.getD today
  if strptimeYmdOk d then
    match fetch with
    | Except.error e => Except.error e
    | Except.ok data =>
      match get_pvpc_prices d data with
      | Except.error e => Except.error e
      | Except.ok pvpc_data =>
        let hourly_prices := parse_hourly_prices pvpc_data
        let hour_range := generate_hour_range start_hour end_hour
        match find_best_consecutive_hours hourly_prices hour_range kwh with
        | Except.error e => Except.error e
        | Except.ok (best_hours, avg) =>
          let avg_price := avg.getD 0
          let formatted_hours := best_hours.map formatHour
          let total_cost := kwh * avg_price
          let explanation := explanationText best_hours (numRepr kwh)
            (fmtFixed 2 total_cost) (fmtFixed 4 avg_price)
          Except.ok
            { recommended_hours := formatted_hours
              average_price_eur_kwh := roundTo 4 avg_price
              total_cost_eur := roundTo 2 total_cost
              explanation := explanation
              query_date := d }
  else
    Except.error "Invalid date format. Use YYYY-MM-DD"

/-- Embeds the summary construction of server.py lines 280-297. -/
def build_pvpc_data (date : String) (hourly_prices : List (ℕ × ℚ)) : PVPCDataM :=
  let prices_only := hourly_prices.map Prod.snd
  { date := date
    hourly_prices := hourly_prices.map (fun hp => (formatHour hp.1, roundTo 4 hp.2))
    min_price := roundTo 4 (listMin prices_only)
    max_price := roundTo 4 (listMax prices_only)
    average_price := roundTo 4 (prices_only.sum / prices_only.length) }

/-- Embeds `ChargingServer.get_current_pvpc_prices` (server.py lines
263-297), with `today` and `fetch` as in `get_best_charging_hours`. -/
def get_current_pvpc_prices (today : String) (fetch : Except String REEResponse)
    (date : Option String) : Except String PVPCDataM :=
  let d := date.getD today
  if strptimeYmdOk d then
    match fetch with
    | Except.error e => Except.error e
    | Except.ok data =>
      match get_pvpc_prices d data with
      | Except.error e => Except.error e
      | Except.ok pvpc_data =>
        Except.ok (build_pvpc_data d (parse_hourly_prices pvpc_data))
  else
    Except.error "Invalid date format. Use YYYY-MM-DD"

lemma hours_needed_pos (kwh : ℚ) : 1 ≤ hours_needed kwh := by
  have h : (1 : ℤ) ≤ max 1 (pyInt (kwh / (7.4 : ℚ) + 0.5)) := le_max_left _ _
  unfold hours_needed
  omega

lemma clamped_le (prices : List (ℕ × ℚ)) (hour_range : List ℕ) (kwh : ℚ) :
    clamped_hours prices hour_range kwh ≤ (filtered_prices prices hour_range).length := by
  unfold clamped_hours
  dsimp only
  split <;> omega

lemma clamped_pos (prices : List (ℕ × ℚ)) (hour_range : List ℕ) (kwh : ℚ)
    (hne : filtered_prices prices hour_range ≠ []) :
    1 ≤ clamped_hours prices hour_range kwh := by
  have hl : 1 ≤ (filtered_prices prices hour_range).length :=
    List.length_pos.mpr hne
  have hp := hours_needed_pos kwh
  unfold clamped_hours
  dsimp only
  split <;> omega

lemma clamped_eq_min (prices : List (ℕ × ℚ)) (hour_range : List ℕ) (kwh : ℚ) :
    clamped_hours prices hour_range kwh =
      min (hours_needed kwh) (filtered_prices prices hour_range).length := by
  unfold clamped_hours
  dsimp only
  split <;> omega

lemma window_length (l : List (ℕ × ℚ)) (hn i : ℕ) (h : i + hn ≤ l.length) :
    (window l hn i).length = hn := by
  simp only [window, List.length_take, List.length_drop]
  omega

/-- Invariant of the search loop of server.py lines 196-202, run over start
positions `a, a+1, ..., a+n-1` from a finite running best `(some b, hs)`:
the final best is the minimum of `b` and the window means seen, and the
final hours are either the initial ones (no window beat `b`) or come from
the EARLIEST window that beats `b` and is beaten by no later window. -/
lemma foldl_bestStep_spec (fp : List (ℕ × ℚ)) (hn : ℕ) :
    ∀ (n a : ℕ) (b : ℚ) (hs : List ℕ),
      ∃ m hsr,
        (List.range' a n).foldl (bestStep fp hn) (some b, hs) = (some m, hsr) ∧
        m ≤ b ∧
        (∀ j, a ≤ j → j < a + n → m ≤ windowMean (window fp hn j)) ∧
        ((m = b ∧ hsr = hs) ∨
          ∃ i, a ≤ i ∧ i < a + n ∧ m = windowMean (window fp hn i) ∧
            hsr = (window fp hn i).map Prod.fst ∧ m < b ∧
            ∀ j, a ≤ j → j < i → m < windowMean (window fp hn j)) := by
  intro n
  induction n with
  | zero =>
    intro a b hs
    refine ⟨b, hs, rfl, le_refl b, ?_, Or.inl ⟨rfl, rfl⟩⟩
    intro j hj1 hj2
    omega
  | succ n ih =>
    intro a b hs
    rw [List.range'_succ, List.foldl_cons]
    by_cases hlt : windowMean (window fp hn a) < b
    · have hstep : bestStep fp hn (some b, hs) a =
          (some (windowMean (window fp hn a)), (window fp hn a).map Prod.fst) := by
        simp [bestStep, hlt]
      rw [hstep]
      obtain ⟨m, hsr, heq, hle, hall, hdisj⟩ :=
        ih (a + 1) (windowMean (window fp hn a)) ((window fp hn a).map Prod.fst)
      refine ⟨m, hsr, heq, le_of_lt (lt_of_le_of_lt hle hlt), ?_, ?_⟩
      · intro j hj1 hj2
        rcases Nat.eq_or_lt_of_le hj1 with h | h
        · exact h ▸ hle
        · exact hall j h (by omega)
      · rcases hdisj with ⟨hm, hhs⟩ | ⟨i, hi1, hi2, hmi, hhsr, hmb, hfirst⟩
        · refine Or.inr ⟨a, le_refl a, by omega, hm, hhs, hm ▸ hlt, ?_⟩
          intro j hj1 hj2
          omega
        · refine Or.inr ⟨i, by omega, by omega, hmi, hhsr, lt_trans hmb hlt, ?_⟩
          intro j hj1 hj2
          rcases Nat.eq_or_lt_of_le hj1 with h | h
          · exact h ▸ hmb
          · exact hfirst j h hj2
    · have hstep : bestStep fp hn (some b, hs) a = (some b, hs) := by
        simp [bestStep, hlt]
      rw [hstep]
      obtain ⟨m, hsr, heq, hle, hall, hdisj⟩ := ih (a + 1) b hs
      refine ⟨m, hsr, heq, hle, ?_, ?_⟩
      · intro j hj1 hj2
        rcases Nat.eq_or_lt_of_le hj1 with h | h
        · exact h ▸ le_trans hle (not_lt.mp hlt)
        · exact hall j h (by omega)
      · rcases hdisj with ⟨hm, hhs⟩ | ⟨i, hi1, hi2, hmi, hhsr, hmb, hfirst⟩
        · exact Or.inl ⟨hm, hhs⟩
        · refine Or.inr ⟨i, by omega, by omega, hmi, hhsr, hmb, ?_⟩
          intro j hj1 hj2
          rcases Nat.eq_or_lt_of_le hj1 with h | h
          · exact h ▸ lt_of_lt_of_le hmb (not_lt.mp hlt)
          · exact hfirst j h hj2

/-- Full characterization of `find_best_consecutive_hours` on a non-empty
filtered sequence: it returns the hours and mean of the window at some
start position `i`, that window's mean is minimal among all same-length
windows, and every strictly earlier window has a strictly larger mean. -/
lemma find_best_spec (prices : List (ℕ × ℚ)) (hour_range : List ℕ) (kwh : ℚ)
    (hne : filtered_prices prices hour_range ≠ []) :
    ∃ i,
      i + clamped_hours prices hour_range kwh ≤ (filtered_prices prices hour_range).length ∧
      find_best_consecutive_hours prices hour_range kwh =
        Except.ok
          ((window (filtered_prices prices hour_range) (clamped_hours prices hour_range kwh) i).map Prod.fst,
            some (windowMean (window (filtered_prices prices hour_range)
              (clamped_hours prices hour_range kwh) i))) ∧
      (∀ j, j + clamped_hours prices hour_range kwh ≤ (filtered_prices prices hour_range).length →
        windowMean (window (filtered_prices prices hour_range) (clamped_hours prices hour_range kwh) i) ≤
          windowMean (window (filtered_prices prices hour_range) (clamped_hours prices hour_range kwh) j)) ∧
      (∀ j, j < i →
        windowMean (window (filtered_prices prices hour_range) (clamped_hours prices hour_range kwh) i) <
          windowMean (window (filtered_prices prices hour_range) (clamped_hours prices hour_range kwh) j)) := by
  set fp := filtered_prices prices hour_range with hfp
  set hn := clamped_hours prices hour_range kwh with hhn
  have hlen : 1 ≤ fp.length := List.length_pos.mpr hne
  have hnle : hn ≤ fp.length := clamped_le prices hour_range kwh
  have hemp : fp.isEmpty = false := by
    cases h : fp with
    | nil => exact absurd h hne
    | cons x xs => rfl
  have hrange : List.range (fp.length - hn + 1) = 0 :: List.range' 1 (fp.length - hn) := by
    rw [List.range_eq_range']
    exact List.range'_succ 0 (fp.length - hn) 1
  have hstep0 : bestStep fp hn (none, []) 0 =
      (some (windowMean (window fp hn 0)), (window fp hn 0).map Prod.fst) := by
    simp [bestStep]
  obtain ⟨m, hsr, heq, hle, hall, hdisj⟩ :=
    foldl_bestStep_spec fp hn (fp.length - hn) 1 (windowMean (window fp hn 0))
      ((window fp hn 0).map Prod.fst)
  have hfb : find_best_consecutive_hours prices hour_range kwh = Except.ok (hsr, some m) := by
    show (if fp.isEmpty then _ else _ : Except String (List ℕ × Option ℚ)) = _
    rw [hemp]
    simp only [Bool.false_eq_true, if_false]
    rw [hrange, List.foldl_cons, hstep0, heq]
  have hminall : ∀ j, j + hn ≤ fp.length → m ≤ windowMean (window fp hn j) := by
    intro j hj
    rcases Nat.eq_zero_or_pos j with h0 | h0
    · exact h0 ▸ hle
    · exact hall j h0 (by omega)
  rcases hdisj with ⟨hm, hhs⟩ | ⟨i, hi1, hi2, hmi, hhsr, hmb, hfirst⟩
  · refine ⟨0, by omega, ?_, ?_, ?_⟩
    · rw [hfb, hhs, hm]
    · intro j hj
      rw [← hm]
      exact hminall j hj
    · intro j hj
      omega
  · refine ⟨i, by omega, ?_, ?_, ?_⟩
    · rw [hfb, hhsr, hmi]
    · intro j hj
      rw [← hmi]
      exact hminall j hj
    · intro j hj
      rw [← hmi]
      rcases Nat.eq_zero_or_pos j with h0 | h0
      · exact h0 ▸ hmb
      · exact hfirst j h0 hj

/-- C1: for every price list, allowed hour range and required length with a
non-empty filtered sequence, `find_best_consecutive_hours` returns the
contiguous slice of the filtered, ascending-hour-ordered sequence whose
arithmetic mean price is less than or equal to the mean of every other
contiguous slice of the same length, and among slices achieving that
minimum it returns the one with the lowest starting index (every strictly
earlier slice has strictly larger mean, reflecting the strict `<`
comparison against the running best). -/
theorem best_window_minimal_and_first (prices : List (ℕ × ℚ)) (hour_range : List ℕ)
    (kwh : ℚ) (hne : filtered_prices prices hour_range ≠ []) :
    ∃ i,
      i + clamped_hours prices hour_range kwh ≤ (filtered_prices prices hour_range).length ∧
      find_best_consecutive_hours prices hour_range kwh =
        Except.ok
          ((window (filtered_prices prices hour_range) (clamped_hours prices hour_range kwh) i).map Prod.fst,
            some (windowMean (window (filtered_prices prices hour_range)
              (clamped_hours prices hour_range kwh) i))) ∧
      (∀ j, j + clamped_hours prices hour_range kwh ≤ (filtered_prices prices hour_range).length →
        windowMean (window (filtered_prices prices hour_range) (clamped_hours prices hour_range kwh) i) ≤
          windowMean (window (filtered_prices prices hour_range) (clamped_hours prices hour_range kwh) j)) ∧
      (∀ j, j < i →
        windowMean (window (filtered_prices prices hour_range) (clamped_hours prices hour_range kwh) i) <
          windowMean (window (filtered_prices prices hour_range) (clamped_hours prices hour_range kwh) j)) :=
  find_best_spec prices hour_range kwh hne

theorem best_window_minimal_and_first_witness :
    filtered_prices [(0, 2), (1, 1)] [0, 1] ≠ [] ∧
    ∃ i,
      i + clamped_hours [(0, 2), (1, 1)] [0, 1] 1 ≤ (filtered_prices [(0, 2), (1, 1)] [0, 1]).length ∧
      find_best_consecutive_hours [(0, 2), (1, 1)] [0, 1] 1 =
        Except.ok
          ((window (filtered_prices [(0, 2), (1, 1)] [0, 1]) (clamped_hours [(0, 2), (1, 1)] [0, 1] 1) i).map Prod.fst,
            some (windowMean (window (filtered_prices [(0, 2), (1, 1)] [0, 1])
              (clamped_hours [(0, 2), (1, 1)] [0, 1] 1) i))) ∧
      (∀ j, j + clamped_hours [(0, 2), (1, 1)] [0, 1] 1 ≤ (filtered_prices [(0, 2), (1, 1)] [0, 1]).length →
        windowMean (window (filtered_prices [(0, 2), (1, 1)] [0, 1]) (clamped_hours [(0, 2), (1, 1)] [0, 1] 1) i) ≤
          windowMean (window (filtered_prices [(0, 2), (1, 1)] [0, 1]) (clamped_hours [(0, 2), (1, 1)] [0, 1] 1) j)) ∧
      (∀ j, j < i →
        windowMean (window (filtered_prices [(0, 2), (1, 1)] [0, 1]) (clamped_hours [(0, 2), (1, 1)] [0, 1] 1) i) <
          windowMean (window (filtered_prices [(0, 2), (1, 1)] [0, 1]) (clamped_hours [(0, 2), (1, 1)] [0, 1] 1) j)) :=
  ⟨by decide, best_window_minimal_and_first [(0, 2), (1, 1)] [0, 1] 1 (by decide)⟩

/-- C2: for every energy amount, the required window length is
`max(1, int(kwh / 7.4 + 0.5))` (round-half-up on the quotient, truncated,
floored at 1), and the returned window's length is that length clamped
down to the filtered sequence's length, i.e. `min` of the two. -/
theorem required_window_length (prices : List (ℕ × ℚ)) (hour_range : List ℕ)
    (kwh : ℚ) (hne : filtered_prices prices hour_range ≠ []) :
    hours_needed kwh = (max 1 (pyInt (kwh / (7.4 : ℚ) + 0.5))).toNat ∧
    1 ≤ hours_needed kwh ∧
    ∃ hs p, find_best_consecutive_hours prices hour_range kwh = Except.ok (hs, p) ∧
      hs.length = min (hours_needed kwh) (filtered_prices prices hour_range).length := by
  refine ⟨rfl, hours_needed_pos kwh, ?_⟩
  obtain ⟨i, hi, heq, _, _⟩ := find_best_spec prices hour_range kwh hne
  refine ⟨_, _, heq, ?_⟩
  rw [List.length_map, window_length _ _ _ hi, clamped_eq_min]

theorem required_window_length_witness :
    filtered_prices [(0, 1)] [0] ≠ [] ∧
    (hours_needed (14.8 : ℚ) = (max 1 (pyInt ((14.8 : ℚ) / (7.4 : ℚ) + 0.5))).toNat ∧
      1 ≤ hours_needed (14.8 : ℚ) ∧
      ∃ hs p, find_best_consecutive_hours [(0, 1)] [0] (14.8 : ℚ) = Except.ok (hs, p) ∧
        hs.length = min (hours_needed (14.8 : ℚ)) (filtered_prices [(0, 1)] [0]).length) :=
  ⟨by decide, required_window_length [(0, 1)] [0] (14.8 : ℚ) (by decide)⟩

/-- C10: on a non-empty filtered sequence and positive energy amount, the
search is safe: the clamped hour count lies between 1 and the filtered
length, the loop body runs at least once (`len - hn + 1 ≥ 1` start
positions), every window divides its sum by a positive length, and the
function returns a non-empty hour list with a finite (`some`) mean, never
the `float('inf')` initial value. -/
theorem find_best_safe (prices : List (ℕ × ℚ)) (hour_range : List ℕ) (kwh : ℚ)
    (hne : filtered_prices prices hour_range ≠ []) (hk : 0 < kwh) :
    1 ≤ clamped_hours prices hour_range kwh ∧
    clamped_hours prices hour_range kwh ≤ (filtered_prices prices hour_range).length ∧
    0 < (filtered_prices prices hour_range).length - clamped_hours prices hour_range kwh + 1 ∧
    (∀ i, i + clamped_hours prices hour_range kwh ≤ (filtered_prices prices hour_range).length →
      0 < (window (filtered_prices prices hour_range) (clamped_hours prices hour_range kwh) i).length) ∧
    ∃ hs m, find_best_consecutive_hours prices hour_range kwh = Except.ok (hs, some m) ∧
      hs ≠ [] ∧ hs.length = clamped_hours prices hour_range kwh := by
  have h1 := clamped_pos prices hour_range kwh hne
  have h2 := clamped_le prices hour_range kwh
  refine ⟨h1, h2, by omega, ?_, ?_⟩
  · intro i hi
    rw [window_length _ _ _ hi]
    exact h1
  · obtain ⟨i, hi, heq, _, _⟩ := find_best_spec prices hour_range kwh hne
    refine ⟨_, _, heq, ?_, ?_⟩
    · have hl : ((window (filtered_prices prices hour_range)
          (clamped_hours prices hour_range kwh) i).map Prod.fst).length =
          clamped_hours prices hour_range kwh := by
        rw [List.length_map, window_length _ _ _ hi]
      intro hnil
      rw [hnil] at hl
      simp at hl
      omega
    · rw [List.length_map, window_length _ _ _ hi]

theorem find_best_safe_witness :
    (filtered_prices [(0, 2), (1, 1)] [0, 1] ≠ [] ∧ (0 : ℚ) < 1) ∧
    (1 ≤ clamped_hours [(0, 2), (1, 1)] [0, 1] 1 ∧
      clamped_hours [(0, 2), (1, 1)] [0, 1] 1 ≤ (filtered_prices [(0, 2), (1, 1)] [0, 1]).length ∧
      0 < (filtered_prices [(0, 2), (1, 1)] [0, 1]).length - clamped_hours [(0, 2), (1, 1)] [0, 1] 1 + 1 ∧
      (∀ i, i + clamped_hours [(0, 2), (1, 1)] [0, 1] 1 ≤ (filtered_prices [(0, 2), (1, 1)] [0, 1]).length →
        0 < (window (filtered_prices [(0, 2), (1, 1)] [0, 1]) (clamped_hours [(0, 2), (1, 1)] [0, 1] 1) i).length) ∧
      ∃ hs m, find_best_consecutive_hours [(0, 2), (1, 1)] [0, 1] 1 = Except.ok (hs, some m) ∧
        hs ≠ [] ∧ hs.length = clamped_hours [(0, 2), (1, 1)] [0, 1] 1) :=
  ⟨⟨by decide, by norm_num⟩,
    find_best_safe [(0, 2), (1, 1)] [0, 1] 1 (by decide) (by norm_num)⟩

/-- C4: for `start ≤ end`, `generate_hour_range` yields exactly the
integers `start..end` inclusive in ascending order; for `start > end` it
yields `start..23` followed by `0..end`; its length is `end+1-start` resp.
`(24-start)+(end+1)`; both endpoints are always included and the result is
never empty, including the degenerate `start == end` case. -/
theorem hour_range_expansion (s e : ℕ) (hs : s ≤ 23) (he : e ≤ 23) :
    (s ≤ e → generate_hour_range s e = List.range' s (e + 1 - s) ∧
      (∀ h, h ∈ generate_hour_range s e ↔ s ≤ h ∧ h ≤ e) ∧
      List.Pairwise (· < ·) (generate_hour_range s e)) ∧
    (e < s → generate_hour_range s e = List.range' s (24 - s) ++ List.range' 0 (e + 1)) ∧
    (generate_hour_range s e).length = (if s ≤ e then e + 1 - s else (24 - s) + (e + 1)) ∧
    s ∈ generate_hour_range s e ∧ e ∈ generate_hour_range s e ∧
    generate_hour_range s e ≠ [] := by
  by_cases hcase : s ≤ e
  · have hgen : generate_hour_range s e = List.range' s (e + 1 - s) := by
      rw [generate_hour_range, if_pos hcase]
    have hmem : ∀ h, h ∈ generate_hour_range s e ↔ s ≤ h ∧ h ≤ e := by
      intro h
      rw [hgen, List.mem_range'_1]
      omega
    refine ⟨fun _ => ⟨hgen, hmem, ?_⟩, fun hc => absurd hcase (by omega), ?_, ?_, ?_, ?_⟩
    · rw [hgen]
      exact List.pairwise_lt_range' s (e + 1 - s) 1
    · rw [hgen, List.length_range', if_pos hcase]
    · exact (hmem s).mpr ⟨le_refl s, hcase⟩
    · exact (hmem e).mpr ⟨hcase, le_refl e⟩
    · intro hnil
      have := (hmem s).mpr ⟨le_refl s, hcase⟩
      rw [hnil] at this
      exact absurd this (List.not_mem_nil s)
  · have hcase' : e < s := by omega
    have hgen : generate_hour_range s e = List.range' s (24 - s) ++ List.range' 0 (e + 1) := by
      rw [generate_hour_range, if_neg hcase]
    have hsmem : s ∈ generate_hour_range s e := by
      rw [hgen]
      refine List.mem_append_left _ ?_
      rw [List.mem_range'_1]
      omega
    refine ⟨fun hc => absurd hc hcase, fun _ => hgen, ?_, hsmem, ?_, ?_⟩
    · rw [hgen, List.length_append, List.length_range', List.length_range', if_neg hcase]
    · rw [hgen]
      refine List.mem_append_right _ ?_
      rw [List.mem_range'_1]
      omega
    · intro hnil
      rw [hnil] at hsmem
      exact absurd hsmem (List.not_mem_nil s)

theorem hour_range_expansion_witness :
    ((22 : ℕ) ≤ 23 ∧ (7 : ℕ) ≤ 23) ∧
    ((22 ≤ 7 → generate_hour_range 22 7 = List.range' 22 (7 + 1 - 22) ∧
        (∀ h, h ∈ generate_hour_range 22 7 ↔ 22 ≤ h ∧ h ≤ 7) ∧
        List.Pairwise (· < ·) (generate_hour_range 22 7)) ∧
      (7 < 22 → generate_hour_range 22 7 = List.range' 22 (24 - 22) ++ List.range' 0 (7 + 1)) ∧
      (generate_hour_range 22 7).length = (if 22 ≤ 7 then 7 + 1 - 22 else (24 - 22) + (7 + 1)) ∧
      22 ∈ generate_hour_range 22 7 ∧ 7 ∈ generate_hour_range 22 7 ∧
      generate_hour_range 22 7 ≠ []) :=
  ⟨⟨by decide, by decide⟩, hour_range_expansion 22 7 (by decide) (by decide)⟩

lemma hours_needed_148 : hours_needed ((74 : ℚ) / 5) = 2 := by
  have h : ((74 : ℚ) / 5 / 7.4 + 0.5) = 5 / 2 := by norm_num
  have h2 : pyInt (5 / 2) = 2 := by
    rw [pyInt, if_pos (by norm_num)]
    norm_num [Int.floor_eq_iff]
  rw [hours_needed, h, h2]
  rfl

/-- C3 counterexample: on the spec's scenario (prices 0.10 at hours 22 and
23, 0.30 at hour 0, 0.05 at hours 1-3, 0.40 at hours 4-7, range 22..7,
kwh 14.8) the code does NOT return the window with hours `[0, 1]`: it
returns hours `[1, 2]`.  The filtered sequence in raw ascending hour order
is `0,1,...,7,22,23`; hours 0 and 1 carry prices 0.30 and 0.05 (mean
0.175), while the first mean-0.05 window is the slice at hours 1 and 2. -/
theorem scenario_c3_counterexample :
    find_best_consecutive_hours
        [(0, 0.3), (1, 0.05), (2, 0.05), (3, 0.05), (4, 0.4), (5, 0.4), (6, 0.4),
          (7, 0.4), (22, 0.1), (23, 0.1)]
        (generate_hour_range 22 7) (14.8 : ℚ) =
      Except.ok ([1, 2], some (0.05 : ℚ)) ∧
    find_best_consecutive_hours
        [(0, 0.3), (1, 0.05), (2, 0.05), (3, 0.05), (4, 0.4), (5, 0.4), (6, 0.4),
          (7, 0.4), (22, 0.1), (23, 0.1)]
        (generate_hour_range 22 7) (14.8 : ℚ) ≠
      Except.ok ([0, 1], some (0.05 : ℚ)) := by
  have h : find_best_consecutive_hours
      [(0, 0.3), (1, 0.05), (2, 0.05), (3, 0.05), (4, 0.4), (5, 0.4), (6, 0.4),
        (7, 0.4), (22, 0.1), (23, 0.1)]
      (generate_hour_range 22 7) (14.8 : ℚ) =
      Except.ok ([1, 2], some (0.05 : ℚ)) := by
    norm_num [find_best_consecutive_hours, filtered_prices, clamped_hours, hours_needed_148,
      generate_hour_range, List.range', List.range, List.range.loop,
      bestStep, window, windowMean]
  refine ⟨h, ?_⟩
  rw [h]
  intro hc
  simp at hc

/-- C3 amended: on the scenario input the required length is `n = 2` and
the best 2-hour window is the one at hours `[1, 2]` (not `[0, 1]`), whose
mean price is 0.05, giving total cost `round(14.8 × 0.05, 2) = 0.74`;
the window is a slice of the filtered sequence taken in raw ascending hour
order. -/
theorem scenario_c3_amended :
    hours_needed (14.8 : ℚ) = 2 ∧
    find_best_consecutive_hours
        [(0, 0.3), (1, 0.05), (2, 0.05), (3, 0.05), (4, 0.4), (5, 0.4), (6, 0.4),
          (7, 0.4), (22, 0.1), (23, 0.1)]
        (generate_hour_range 22 7) (14.8 : ℚ) =
      Except.ok ([1, 2], some (0.05 : ℚ)) ∧
    roundTo 2 ((14.8 : ℚ) * 0.05) = 0.74 := by
  refine ⟨?_, ?_, ?_⟩
  · have h : (14.8 : ℚ) = 74 / 5 := by norm_num
    rw [h, hours_needed_148]
  · norm_num [find_best_consecutive_hours, filtered_prices, clamped_hours, hours_needed_148,
      generate_hour_range, List.range', List.range, List.range.loop,
      bestStep, window, windowMean]
  · rw [roundTo]
    norm_num [round_eq]

/-- C5 counterexample: an entry whose TYPE field merely CONTAINS the marker
"PVPC" (here `type = "PVPC2026"`) is claimed selected by the spec's rule,
but the code compares the type field by equality and therefore selects
nothing, failing with the no-PVPC-data error even though readings exist. -/
theorem pvpc_containment_counterexample :
    specPVPCEntry ⟨"PVPC2026", "demanda", [⟨0, 100⟩]⟩ = true ∧
    get_pvpc_prices "2024-01-15" ⟨[⟨"PVPC2026", "demanda", [⟨0, 100⟩]⟩]⟩ =
      Except.error ("No PVPC data available for date " ++ "2024-01-15") :=
  ⟨by decide, rfl⟩

/-- Success inversion for `get_pvpc_prices`: a returned entry is a member
of the payload, passes the code's selection test, and has readings. -/
lemma get_pvpc_prices_ok (date : String) (data : REEResponse) (item : PVPCItem)
    (h : get_pvpc_prices date data = Except.ok item) :
    item ∈ data.included ∧ isPVPCEntry item = true ∧
    (item.type = "PVPC" ∨ strHasSub "PVPC" item.id = true) ∧ item.values ≠ [] := by
  rw [get_pvpc_prices] at h
  split at h
  · exact absurd h (by simp)
  · rename_i hemp
    cases hfind : data.included.find? (fun it => isPVPCEntry it) with
    | none => rw [hfind] at h; exact absurd h (by simp)
    | some it =>
      rw [hfind] at h
      dsimp only at h
      by_cases hv : it.values.isEmpty = true
      · rw [if_pos hv] at h
        exact absurd h (by simp)
      · rw [if_neg hv] at h
        have hit : it = item := by
          have := h
          simp at this
          exact this
        subst hit
        have hp := List.find?_some hfind
        have hp' : it.type == "PVPC" || strHasSub "PVPC" it.id := by
          rw [isPVPCEntry] at hp
          exact hp
        refine ⟨List.mem_of_find?_eq_some hfind, hp, ?_, ?_⟩
        · rcases Bool.or_eq_true_iff.mp hp' with h1 | h1
          · exact Or.inl (by simpa using h1)
          · exact Or.inr h1
        · intro hnil
          rw [hnil] at hv
          exact hv rfl

/-- C5 amended: a zero-entry payload fails with the no-price-data error; an
entry is selected exactly when its type field EQUALS "PVPC" or its id field
contains "PVPC" (the first such entry wins, and its readings must be
non-empty); if no entry passes that test the call fails with the
no-PVPC-data error, not a parse failure. -/
theorem pvpc_selection_rule (date : String) (data : REEResponse) :
    (data.included = [] →
      get_pvpc_prices date data =
        Except.error ("No price data available for date " ++ date)) ∧
    (data.included ≠ [] → (∀ item ∈ data.included, isPVPCEntry item = false) →
      get_pvpc_prices date data =
        Except.error ("No PVPC data available for date " ++ date)) ∧
    (∀ item, data.included.find? (fun it => isPVPCEntry it) = some item →
      item.values ≠ [] → get_pvpc_prices date data = Except.ok item) ∧
    (∀ item, get_pvpc_prices date data = Except.ok item →
      item ∈ data.included ∧ isPVPCEntry item = true ∧
      (item.type = "PVPC" ∨ strHasSub "PVPC" item.id = true) ∧ item.values ≠ []) := by
  refine ⟨?_, ?_, ?_, ?_⟩
  · intro h
    simp [get_pvpc_prices, h]
  · intro hne hall
    have hfind : data.included.find? (fun it => isPVPCEntry it) = none := by
      rw [List.find?_eq_none]
      intro x hx
      simp [hall x hx]
    have hemp : data.included.isEmpty = false := by
      cases h : data.included with
      | nil => exact absurd h hne
      | cons a l => rfl
    simp [get_pvpc_prices, hemp, hfind]
  · intro item hfind hv
    have hmem := List.mem_of_find?_eq_some hfind
    have hemp : data.included.isEmpty = false := by
      cases h : data.included with
      | nil => rw [h] at hmem; exact absurd hmem (List.not_mem_nil item)
      | cons a l => rfl
    have hv' : item.values.isEmpty = false := by
      cases h : item.values with
      | nil => exact absurd h hv
      | cons a l => rfl
    simp [get_pvpc_prices, hemp, hfind, hv']
  · intro item h
    exact get_pvpc_prices_ok date data item h

theorem pvpc_selection_rule_witness :
    get_pvpc_prices "2024-01-15" ⟨[⟨"PVPC", "spot", [⟨0, 100⟩]⟩]⟩ =
      Except.ok ⟨"PVPC", "spot", [⟨0, 100⟩]⟩ :=
  (pvpc_selection_rule "2024-01-15" ⟨[⟨"PVPC", "spot", [⟨0, 100⟩]⟩]⟩).2.2.1
    ⟨"PVPC", "spot", [⟨0, 100⟩]⟩ rfl (by simp)

/-- C6: for a multi-hour window the explanation's displayed end boundary is
the hour after the last selected hour, computed by plain `+1` with no
modulo-24 correction (a window ending at hour 23 displays "24:00"), while
a single-hour window gets the distinct single-time phrasing. -/
theorem explanation_end_boundary (hs : List ℕ) (x y z : String) (hne : hs ≠ []) :
    (hs.length = 1 → explanationText hs x y z =
      "Recommended charging time: " ++ formatHour (hs.headD 0) ++ ". With " ++ x ++
        " kWh consumption, cost will be " ++ y ++ "€ (price: " ++ z ++ "€/kWh).") ∧
    (2 ≤ hs.length → explanationText hs x y z =
      "Recommended charging period: " ++ formatHour (hs.headD 0) ++ " to " ++
        formatHour (hs.getLastD 0 + 1) ++ ". With " ++ x ++
        " kWh consumption, cost will be " ++ y ++ "€ (average price: " ++ z ++ "€/kWh).") ∧
    (hs.getLastD 0 = 23 → formatHour (hs.getLastD 0 + 1) = "24:00") := by
  obtain ⟨a, t, rfl⟩ : ∃ a t, hs = a :: t := by
    cases hs with
    | nil => exact absurd rfl hne
    | cons a t => exact ⟨a, t, rfl⟩
  refine ⟨?_, ?_, ?_⟩
  · intro hlen
    have ht : t = [] := by simpa using hlen
    subst ht
    simp [explanationText]
  · intro hlen
    obtain ⟨b, t2, rfl⟩ : ∃ b t2, t = b :: t2 := by
      cases t with
      | nil => simp at hlen
      | cons b t2 => exact ⟨b, t2, rfl⟩
    have hne1 : ((a :: b :: t2).length == 1) = false := rfl
    simp [explanationText, hne1]
  · intro hlast
    rw [hlast]
    decide

theorem explanation_end_boundary_witness :
    ([22, 23] : List ℕ) ≠ [] ∧
    (([22, 23] : List ℕ).length = 1 → explanationText [22, 23] "14.8" "1.48" "0.1000" =
      "Recommended charging time: " ++ formatHour (([22, 23] : List ℕ).headD 0) ++ ". With " ++ "14.8" ++
        " kWh consumption, cost will be " ++ "1.48" ++ "€ (price: " ++ "0.1000" ++ "€/kWh).") ∧
    (2 ≤ ([22, 23] : List ℕ).length → explanationText [22, 23] "14.8" "1.48" "0.1000" =
      "Recommended charging period: " ++ formatHour (([22, 23] : List ℕ).headD 0) ++ " to " ++
        formatHour (([22, 23] : List ℕ).getLastD 0 + 1) ++ ". With " ++ "14.8" ++
        " kWh consumption, cost will be " ++ "1.48" ++ "€ (average price: " ++ "0.1000" ++ "€/kWh).") ∧
    (([22, 23] : List ℕ).getLastD 0 = 23 → formatHour (([22, 23] : List ℕ).getLastD 0 + 1) = "24:00") :=
  ⟨by decide, explanation_end_boundary [22, 23] "14.8" "1.48" "0.1000" (by decide)⟩

/-- C8: when filtering the parsed series to the allowed hour range yields
an empty sequence, `find_best_consecutive_hours` fails with the
no-prices-in-range error, and `get_best_charging_hours` propagates exactly
that error to its caller. -/
theorem empty_range_error_propagates (today date : String) (data : REEResponse)
    (item : PVPCItem) (start_hour end_hour : ℕ) (kwh : ℚ)
    (hd : strptimeYmdOk date = true)
    (hsel : get_pvpc_prices date data = Except.ok item)
    (hemp : filtered_prices (parse_hourly_prices item)
      (generate_hour_range start_hour end_hour) = []) :
    find_best_consecutive_hours (parse_hourly_prices item)
        (generate_hour_range start_hour end_hour) kwh =
      Except.error "No prices available in specified hour range" ∧
    get_best_charging_hours today (Except.ok data) (some date) start_hour end_hour kwh =
      Except.error "No prices available in specified hour range" := by
  have h1 : find_best_consecutive_hours (parse_hourly_prices item)
      (generate_hour_range start_hour end_hour) kwh =
      Except.error "No prices available in specified hour range" := by
    simp [find_best_consecutive_hours, hemp]
  refine ⟨h1, ?_⟩
  simp [get_best_charging_hours, hd, hsel, h1]

theorem empty_range_error_propagates_witness :
    (strptimeYmdOk "2024-01-15" = true ∧
      get_pvpc_prices "2024-01-15" ⟨[⟨"PVPC", "spot", [⟨12, 100⟩]⟩]⟩ =
        Except.ok ⟨"PVPC", "spot", [⟨12, 100⟩]⟩ ∧
      filtered_prices (parse_hourly_prices ⟨"PVPC", "spot", [⟨12, 100⟩]⟩)
        (generate_hour_range 0 7) = []) ∧
    (find_best_consecutive_hours (parse_hourly_prices ⟨"PVPC", "spot", [⟨12, 100⟩]⟩)
        (generate_hour_range 0 7) 10 =
      Except.error "No prices available in specified hour range" ∧
    get_best_charging_hours "2024-01-15" (Except.ok ⟨[⟨"PVPC", "spot", [⟨12, 100⟩]⟩]⟩)
        (some "2024-01-15") 0 7 10 =
      Except.error "No prices available in specified hour range") :=
  ⟨⟨by decide, rfl, by simp [filtered_prices, parse_hourly_prices, List.mergeSort,
      generate_hour_range, List.range']⟩,
    empty_range_error_propagates "2024-01-15" "2024-01-15"
      ⟨[⟨"PVPC", "spot", [⟨12, 100⟩]⟩]⟩ ⟨"PVPC", "spot", [⟨12, 100⟩]⟩ 0 7 10
      (by decide) rfl
      (by simp [filtered_prices, parse_hourly_prices, List.mergeSort,
        generate_hour_range, List.range'])⟩

/-- C9 counterexample: the date string "2024-1-5" does not match the
`YYYY-MM-DD` pattern, yet neither operation fails with the invalid-date
error: both proceed to the fetch, whose outcome (here a network error)
becomes the result.  CPython's `strptime("%Y-%m-%d")` accepts one-digit
month and day fields. -/
theorem nonpadded_date_counterexample :
    matchesYYYYMMDD "2024-1-5" = false ∧
    strptimeYmdOk "2024-1-5" = true ∧
    get_best_charging_hours "2024-01-15" (Except.error "network unreachable")
        (some "2024-1-5") 22 7 10 = Except.error "network unreachable" ∧
    get_current_pvpc_prices "2024-01-15" (Except.error "network unreachable")
        (some "2024-1-5") = Except.error "network unreachable" :=
  ⟨by decide, by decide, rfl, rfl⟩

/-- C9 amended: every date string REJECTED BY `strptime("%Y-%m-%d")`
(four-digit year, one-or-two-digit month and day denoting a real calendar
date; zero-padding is NOT required) makes both operations fail with the
invalid-date error for every fetch outcome, i.e. before any fetch can
influence the result; the malformed "15-01-2024" is such a string; an
absent date behaves exactly as passing the caller's current local date. -/
theorem invalid_date_rejected (today : String) (fetch : Except String REEResponse)
    (start_hour end_hour : ℕ) (kwh : ℚ) (s : String)
    (hbad : strptimeYmdOk s = false) :
    get_best_charging_hours today fetch (some s) start_hour end_hour kwh =
      Except.error "Invalid date format. Use YYYY-MM-DD" ∧
    get_current_pvpc_prices today fetch (some s) =
      Except.error "Invalid date format. Use YYYY-MM-DD" ∧
    strptimeYmdOk "15-01-2024" = false ∧
    get_best_charging_hours today fetch none start_hour end_hour kwh =
      get_best_charging_hours today fetch (some today) start_hour end_hour kwh ∧
    get_current_pvpc_prices today fetch none =
      get_current_pvpc_prices today fetch (some today) := by
  refine ⟨?_, ?_, by decide, rfl, rfl⟩
  · simp [get_best_charging_hours, hbad]
  · simp [get_current_pvpc_prices, hbad]

theorem invalid_date_rejected_witness :
    strptimeYmdOk "15-01-2024" = false ∧
    (get_best_charging_hours "2024-01-15" (Except.error "boom") (some "15-01-2024") 22 7 10 =
      Except.error "Invalid date format. Use YYYY-MM-DD" ∧
    get_current_pvpc_prices "2024-01-15" (Except.error "boom") (some "15-01-2024") =
      Except.error "Invalid date format. Use YYYY-MM-DD" ∧
    strptimeYmdOk "15-01-2024" = false ∧
    get_best_charging_hours "2024-01-15" (Except.error "boom") none 22 7 10 =
      get_best_charging_hours "2024-01-15" (Except.error "boom") (some "2024-01-15") 22 7 10 ∧
    get_current_pvpc_prices "2024-01-15" (Except.error "boom") none =
      get_current_pvpc_prices "2024-01-15" (Except.error "boom") (some "2024-01-15")) :=
  ⟨by decide,
    invalid_date_rejected "2024-01-15" (Except.error "boom") 22 7 10 "15-01-2024" (by decide)⟩

lemma foldl_min_le_init (xs : List ℚ) : ∀ a : ℚ, xs.foldl min a ≤ a := by
  induction xs with
  | nil => intro a; exact le_refl a
  | cons x t ih => intro a; exact le_trans (ih (min a x)) (min_le_left a x)

lemma foldl_min_le_mem (xs : List ℚ) : ∀ (a x : ℚ), x ∈ xs → xs.foldl min a ≤ x := by
  induction xs with
  | nil => intro a x hx; exact absurd hx (List.not_mem_nil x)
  | cons y t ih =>
    intro a x hx
    rcases List.mem_cons.mp hx with h | h
    · subst h
      exact le_trans (foldl_min_le_init t (min a x)) (min_le_right a x)
    · exact ih (min a y) x h

lemma listMin_le (l : List ℚ) : ∀ x ∈ l, listMin l ≤ x := by
  cases l with
  | nil => intro x hx; exact absurd hx (List.not_mem_nil x)
  | cons a t =>
    intro x hx
    rcases List.mem_cons.mp hx with h | h
    · subst h
      exact foldl_min_le_init t x
    · exact foldl_min_le_mem t a x h

lemma init_le_foldl_max (xs : List ℚ) : ∀ a : ℚ, a ≤ xs.foldl max a := by
  induction xs with
  | nil => intro a; exact le_refl a
  | cons x t ih => intro a; exact le_trans (le_max_left a x) (ih (max a x))

lemma mem_le_foldl_max (xs : List ℚ) : ∀ (a x : ℚ), x ∈ xs → x ≤ xs.foldl max a := by
  induction xs with
  | nil => intro a x hx; exact absurd hx (List.not_mem_nil x)
  | cons y t ih =>
    intro a x hx
    rcases List.mem_cons.mp hx with h | h
    · subst h
      exact le_trans (le_max_right a x) (init_le_foldl_max t (max a x))
    · exact ih (max a y) x h

lemma le_listMax (l : List ℚ) : ∀ x ∈ l, x ≤ listMax l := by
  cases l with
  | nil => intro x hx; exact absurd hx (List.not_mem_nil x)
  | cons a t =>
    intro x hx
    rcases List.mem_cons.mp hx with h | h
    · subst h
      exact init_le_foldl_max t x
    · exact mem_le_foldl_max t a x h

lemma listMin_le_mean (l : List ℚ) (h : l ≠ []) : listMin l ≤ l.sum / l.length := by
  have hlen : 0 < (l.length : ℚ) := by
    have := List.length_pos.mpr h
    exact_mod_cast this
  rw [le_div_iff hlen]
  have hsum : l.length • listMin l ≤ l.sum := List.card_nsmul_le_sum l _ (listMin_le l)
  calc listMin l * (l.length : ℚ) = l.length • listMin l := by
        rw [nsmul_eq_mul]; ring
    _ ≤ l.sum := hsum

lemma mean_le_listMax (l : List ℚ) (h : l ≠ []) : l.sum / l.length ≤ listMax l := by
  have hlen : 0 < (l.length : ℚ) := by
    have := List.length_pos.mpr h
    exact_mod_cast this
  rw [div_le_iff hlen]
  have hsum : l.sum ≤ l.length • listMax l := List.sum_le_card_nsmul l _ (le_listMax l)
  calc l.sum ≤ l.length • listMax l := hsum
    _ = listMax l * (l.length : ℚ) := by rw [nsmul_eq_mul]; ring

lemma roundTo_mono (k : ℕ) {q r : ℚ} (h : q ≤ r) : roundTo k q ≤ roundTo k r := by
  unfold roundTo
  have hm : round (q * 10 ^ k) ≤ round (r * 10 ^ k) := by
    rw [round_eq, round_eq]
    refine Int.floor_mono ?_
    have : q * 10 ^ k ≤ r * 10 ^ k :=
      mul_le_mul_of_nonneg_right h (by positivity)
    linarith
  have hcast : ((round (q * 10 ^ k) : ℤ) : ℚ) ≤ ((round (r * 10 ^ k) : ℤ) : ℚ) := by
    exact_mod_cast hm
  gcongr

lemma abs_roundTo_sub (k : ℕ) (q : ℚ) : |roundTo k q - q| ≤ 1 / 2 / 10 ^ k := by
  have h := abs_sub_round (q * 10 ^ k)
  have hpow : (0 : ℚ) < 10 ^ k := by positivity
  have heq : roundTo k q - q = ((round (q * 10 ^ k) : ℤ) - q * 10 ^ k) / 10 ^ k := by
    rw [roundTo]
    field_simp
    ring
  rw [heq, abs_div, abs_of_pos hpow]
  have h' : |((round (q * 10 ^ k) : ℤ) : ℚ) - q * 10 ^ k| ≤ 1 / 2 := by
    rw [abs_sub_comm]
    exact h
  gcongr

lemma abs_sum_map_roundTo (l : List ℚ) :
    |(l.map (roundTo 4)).sum - l.sum| ≤ (l.length : ℚ) * (1 / 2 / 10 ^ 4) := by
  induction l with
  | nil => simp
  | cons a t ih =>
    simp only [List.map_cons, List.sum_cons, List.length_cons]
    have h1 := abs_roundTo_sub 4 a
    have hstep : |roundTo 4 a + (t.map (roundTo 4)).sum - (a + t.sum)| ≤
        1 / 2 / 10 ^ 4 + (t.length : ℚ) * (1 / 2 / 10 ^ 4) := by
      have heq : roundTo 4 a + (t.map (roundTo 4)).sum - (a + t.sum) =
          (roundTo 4 a - a) + ((t.map (roundTo 4)).sum - t.sum) := by ring
      rw [heq]
      exact le_trans (abs_add _ _) (add_le_add h1 ih)
    have hcast : ((t.length + 1 : ℕ) : ℚ) = (t.length : ℚ) + 1 := by push_cast; ring
    rw [hcast]
    calc |roundTo 4 a + (t.map (roundTo 4)).sum - (a + t.sum)| ≤
        1 / 2 / 10 ^ 4 + (t.length : ℚ) * (1 / 2 / 10 ^ 4) := hstep
      _ = ((t.length : ℚ) + 1) * (1 / 2 / 10 ^ 4) := by ring

lemma mean_round_err (p : List ℚ) (hp : p ≠ []) :
    |(p.map (roundTo 4)).sum / (p.length : ℚ) - p.sum / (p.length : ℚ)| ≤
      1 / 2 / 10 ^ 4 := by
  have hlen : 0 < (p.length : ℚ) := by
    have := List.length_pos.mpr hp
    exact_mod_cast this
  rw [div_sub_div_same, abs_div, abs_of_pos hlen, div_le_iff₀ hlen]
  calc |(p.map (roundTo 4)).sum - p.sum| ≤ (p.length : ℚ) * (1 / 2 / 10 ^ 4) :=
      abs_sum_map_roundTo p
    _ = 1 / 2 / 10 ^ 4 * (p.length : ℚ) := by ring

lemma parse_hourly_prices_length (item : PVPCItem) :
    (parse_hourly_prices item).length = item.values.length := by
  rw [parse_hourly_prices]
  rw [List.length_mergeSort, List.length_map]

/-- C7: whenever `get_current_pvpc_prices` succeeds, the summary satisfies
`min_price ≤ average_price ≤ max_price`, and `average_price` (the raw
mean rounded to 4 decimals) equals the arithmetic mean of the returned
(4-decimal-rounded) hourly prices to 4-decimal precision: they differ by
at most `1/10000`. -/
theorem daily_summary_stats (today : String) (fetch : Except String REEResponse)
    (date : Option String) (res : PVPCDataM)
    (h : get_current_pvpc_prices today fetch date = Except.ok res) :
    res.min_price ≤ res.average_price ∧ res.average_price ≤ res.max_price ∧
    |res.average_price -
        (res.hourly_prices.map Prod.snd).sum / (res.hourly_prices.length : ℚ)| ≤
      1 / 10000 := by
  rw [get_current_pvpc_prices.eq_def] at h
  dsimp only at h
  split at h
  · cases fetch with
    | error e => exact absurd h (by simp)
    | ok data =>
      dsimp only at h
      cases hsel : get_pvpc_prices (date.getD today) data with
      | error e => rw [hsel] at h; exact absurd h (by simp)
      | ok item =>
        rw [hsel] at h
        dsimp only at h
        have hres : res = build_pvpc_data (date.getD today) (parse_hourly_prices item) := by
          have := h
          simp at this
          exact this.symm
        subst hres
        obtain ⟨-, -, -, hv⟩ := get_pvpc_prices_ok _ _ _ hsel
        have hlp : ((parse_hourly_prices item).map Prod.snd).length = item.values.length := by
          rw [List.length_map, parse_hourly_prices_length]
        have hpne : (parse_hourly_prices item).map Prod.snd ≠ [] := by
          intro hnil
          rw [hnil] at hlp
          simp at hlp
          exact hv (List.eq_nil_of_length_eq_zero hlp.symm)
        simp only [build_pvpc_data]
        refine ⟨roundTo_mono 4 (listMin_le_mean _ hpne),
          roundTo_mono 4 (mean_le_listMax _ hpne), ?_⟩
        have hmaps : (((parse_hourly_prices item).map
              (fun hp => (formatHour hp.1, roundTo 4 hp.2))).map Prod.snd) =
            ((parse_hourly_prices item).map Prod.snd).map (roundTo 4) := by
          simp [List.map_map, Function.comp]
        have hmlen : (((parse_hourly_prices item).map
              (fun hp => (formatHour hp.1, roundTo 4 hp.2)))).length =
            ((parse_hourly_prices item).map Prod.snd).length := by
          simp
        rw [hmaps, hmlen]
        set p := (parse_hourly_prices item).map Prod.snd with hpdef
        have h1 := abs_roundTo_sub 4 (p.sum / (p.length : ℚ))
        have h2 := mean_round_err p hpne
        calc |roundTo 4 (p.sum / (p.length : ℚ)) -
              (p.map (roundTo 4)).sum / (p.length : ℚ)|
            ≤ |roundTo 4 (p.sum / (p.length : ℚ)) - p.sum / (p.length : ℚ)| +
              |p.sum / (p.length : ℚ) - (p.map (roundTo 4)).sum / (p.length : ℚ)| :=
            abs_sub_le _ _ _
          _ ≤ 1 / 2 / 10 ^ 4 + 1 / 2 / 10 ^ 4 := by
            refine add_le_add h1 ?_
            rw [abs_sub_comm]
            exact h2
          _ = 1 / 10000 := by norm_num
  · exact absurd h (by simp)

theorem daily_summary_stats_witness :
    get_current_pvpc_prices "2024-01-15"
        (Except.ok ⟨[⟨"PVPC", "spot", [⟨0, 100⟩, ⟨1, 200⟩]⟩]⟩) none =
      Except.ok (build_pvpc_data "2024-01-15"
        (parse_hourly_prices ⟨"PVPC", "spot", [⟨0, 100⟩, ⟨1, 200⟩]⟩)) ∧
    ((build_pvpc_data "2024-01-15"
        (parse_hourly_prices ⟨"PVPC", "spot", [⟨0, 100⟩, ⟨1, 200⟩]⟩)).min_price ≤
      (build_pvpc_data "2024-01-15"
        (parse_hourly_prices ⟨"PVPC", "spot", [⟨0, 100⟩, ⟨1, 200⟩]⟩)).average_price ∧
    (build_pvpc_data "2024-01-15"
        (parse_hourly_prices ⟨"PVPC", "spot", [⟨0, 100⟩, ⟨1, 200⟩]⟩)).average_price ≤
      (build_pvpc_data "2024-01-15"
        (parse_hourly_prices ⟨"PVPC", "spot", [⟨0, 100⟩, ⟨1, 200⟩]⟩)).max_price ∧
    |(build_pvpc_data "2024-01-15"
        (parse_hourly_prices ⟨"PVPC", "spot", [⟨0, 100⟩, ⟨1, 200⟩]⟩)).average_price -
        (((build_pvpc_data "2024-01-15"
          (parse_hourly_prices ⟨"PVPC", "spot", [⟨0, 100⟩, ⟨1, 200⟩]⟩)).hourly_prices.map
            Prod.snd).sum /
          (((build_pvpc_data "2024-01-15"
            (parse_hourly_prices ⟨"PVPC", "spot", [⟨0, 100⟩, ⟨1, 200⟩]⟩)).hourly_prices.length : ℚ)))| ≤
      1 / 10000) :=
  ⟨rfl, daily_summary_stats "2024-01-15"
    (Except.ok ⟨[⟨"PVPC", "spot", [⟨0, 100⟩, ⟨1, 200⟩]⟩]⟩) none
    (build_pvpc_data "2024-01-15"
      (parse_hourly_prices ⟨"PVPC", "spot", [⟨0, 100⟩, ⟨1, 200⟩]⟩)) rfl⟩
